import Mathlib

/-!
Verification development for the Kartographer client-side map view
controller (`KartographerMap`, modules/box/Map.js as shipped inside
`src/includes/DataModule.php`).

The JavaScript source is shallowly embedded: numbers become `ℚ` (all
coordinate arithmetic in the source stays well inside double precision on
the inputs considered, so exact rational arithmetic models it), JS
`undefined` / `NaN` degrade to `Option`, and the external Leaflet drawing
primitives (`fitBounds`, `fitWorld`, `L.mapbox.featureLayer`) — explicitly
out of scope collaborators — are supplied as an `Engine` record of
functions so that every theorem quantifies over the rendering surface.
-/

namespace Kartographer

/-! ## Geometry: latitude/longitude points and bounds

`L.LatLng` and `L.LatLngBounds`.  An *empty* `L.LatLngBounds` (no point
ever extended into it) is modelled as `none`; a nonempty one as
`some box`. -/

/-- A geographic point (`L.LatLng`). -/
structure LatLng where
  lat : ℚ
  lng : ℚ
deriving DecidableEq

/-- A nonempty bounding box (`L.LatLngBounds` with both corners set):
south-west corner `(south, west)`, north-east corner `(north, east)`. -/
structure Box where
  south : ℚ
  west : ℚ
  north : ℚ
  east : ℚ
deriving DecidableEq

/-- The degenerate box of a single point. -/
def pointBox (p : LatLng) : Box :=
  ⟨p.lat, p.lng, p.lat, p.lng⟩

/-- `L.LatLngBounds#extend` with a point: enlarge the box to contain it. -/
def Box.extendPoint (b : Box) (p : LatLng) : Box :=
  ⟨min b.south p.lat, min b.west p.lng, max b.north p.lat, max b.east p.lng⟩

/-- `L.LatLngBounds#extend` with another nonempty bounds: the union box. -/
def Box.unionB (b : Box) (c : Box) : Box :=
  ⟨min b.south c.south, min b.west c.west, max b.north c.north, max b.east c.east⟩

/-- `L.LatLngBounds#extend` on possibly-empty bounds.  Leaflet's `extend`
returns `this` unchanged both for a falsy argument (`extend(false)` in
`getValidBounds`) and for an empty `LatLngBounds` argument. -/
def extendOpt : Option Box → Option Box → Option Box
  | none, ob => ob
  | some b, none => some b
  | some b, some c => some (b.unionB c)

/-- Bounding box of a list of points (`none` when the list is empty),
folding `extend` left-to-right as Leaflet's `LatLngBounds` constructor
does. -/
def bboxOfPoints (ps : List LatLng) : Option Box :=
  ps.foldl (fun acc p => some ((acc.getD (pointBox p)).extendPoint p)) none

/-- `worldLatLng = new L.LatLngBounds([-90, -180], [90, 180])`
(DataModule.php line 97). -/
def worldLatLng : Box := ⟨-90, -180, 90, 180⟩

/-- `L.LatLngBounds#contains` of a nonempty bounds (or a single point,
which Leaflet treats as a degenerate bounds): componentwise inclusion. -/
def Box.containsBox (outer inner : Box) : Bool :=
  decide (outer.south ≤ inner.south) && decide (inner.north ≤ outer.north) &&
  decide (outer.west ≤ inner.west) && decide (inner.east ≤ outer.east)

/-- `worldLatLng.contains bounds` lifted to possibly-empty bounds.  The
claims under study only exercise nonempty geometry; an empty bounds is
treated as not contained (Leaflet would fault on it, and no caller in the
source ever produces one on the paths the claims cover). -/
def worldContains : Option Box → Bool
  | some b => worldLatLng.containsBox b
  | none => false

/-! ## Layers

The layers a `KartographerMap` carries: the base tile layer (which offers
neither `getBounds` nor `getLatLng`), point markers (`getLatLng`), plain
paths (`getBounds`), polygons (`getBounds`, plus `getLatLngs` returning the
list of rings), and feature groups (`eachLayer` recursion). -/

inductive Layer where
  | tile : Layer
  | marker (p : LatLng) : Layer
  | path (pts : List LatLng) : Layer
  | polygon (rings : List (List LatLng)) : Layer
  | group (children : List Layer) : Layer

/-- `validateBounds( layer )` (DataModule.php lines 159–175): the bounds
of a single layer if they fit into the world, with the geomask special
case — a polygon whose own bounds fail the test but which has a second
ring (`layer.getLatLngs()[1]` is truthy exactly when index 1 exists) is
retried on the bounds of all rings but the first. -/
def validateBounds : Layer → Option Box
  | .tile => none
  | .marker p =>
      if worldContains (some (pointBox p)) then some (pointBox p) else none
  | .path pts =>
      let bounds := bboxOfPoints pts
      if worldContains bounds then bounds else none
  | .polygon rings =>
      let bounds := bboxOfPoints rings.flatten
      if worldContains bounds then bounds
      else if 2 ≤ rings.length then
        let holeBounds := bboxOfPoints (rings.drop 1).flatten
        if worldContains holeBounds then holeBounds else none
      else none
  | .group _ => none

mutual
/-- `getValidBounds( layer )` (DataModule.php lines 184–194): extend an
initially empty `L.LatLngBounds` with the valid bounds of every sub-layer
(composites recurse through `eachLayer`), leaves contributing
`validateBounds` (whose `false` result extends nothing). -/
def getValidBounds : Layer → Option Box
  | .group children => getValidBoundsList none children
  | l => extendOpt none (validateBounds l)

/-- The `eachLayer` left fold inside `getValidBounds`. -/
def getValidBoundsList : Option Box → List Layer → Option Box
  | acc, [] => acc
  | acc, c :: cs => getValidBoundsList (extendOpt acc (getValidBounds c)) cs
end

/-- `getValidBounds( this )` on the map object itself: the map's
`eachLayer` iterates over every layer added to the map (tile layer, data
layers, markers). -/
def getValidBoundsMap (layers : List Layer) : Option Box :=
  getValidBoundsList none layers

/-! ## Coordinate formatting: `precisionPerZoom`, `toFixed`, wrapping -/

/-- `precisionPerZoom` (DataModule.php line 99): decimal places used for
coordinate rounding, indexed by zoom level 0‥18. -/
def precisionPerZoom : List ℕ :=
  [0, 0, 1, 2, 2, 3, 3, 3, 3, 4, 4, 4, 4, 4, 4, 4, 4, 5, 5]

/-- The precision actually used at a zoom level: `precisionPerZoom[zoom]`.
A JavaScript out-of-range index yields `undefined`, and
`Number#toFixed(undefined)` coerces the digit count to `0`; hence the
default `0` for indices past the end of the table. -/
def precisionAt (zoom : ℕ) : ℕ :=
  precisionPerZoom.getD zoom 0

/-- `maxZoom: 19` of the `wikimediaLayer` tile layer
(DataModule.php line 344). -/
def wikimediaMaxZoom : ℕ := 19

/-- Leaflet clamps every requested zoom to the layers' maximum zoom
(`L.Map#_limitZoom`); the only zoom-bounded layer on the map is the base
tile layer with `maxZoom: 19`. -/
def limitZoom (z : ℕ) : ℕ :=
  min z wikimediaMaxZoom

/-- The rounded integer produced by `Number#toFixed`: the integer closest
to `|x| * 10 ^ f`, ties towards the larger integer (ECMA-262). -/
def toFixedNum (x : ℚ) (f : ℕ) : ℕ :=
  (⌊|x| * 10 ^ f + 1 / 2⌋).toNat

/-- Left-pad a digit string with `'0'` up to length `f`. -/
def padLeftZeros (s : String) (f : ℕ) : String :=
  String.mk (List.replicate (f - s.length) '0') ++ s

/-- JavaScript `Number#toFixed(f)`: sign (kept even for values that round
to zero, e.g. `(-0.4).toFixed(0) = "-0"`), integer part, and exactly `f`
fractional digits. -/
def toFixed (x : ℚ) (f : ℕ) : String :=
  let sgn : String := if x < 0 then "-" else ""
  let n : ℕ := toFixedNum x f
  if f = 0 then sgn ++ toString n
  else sgn ++ toString (n / 10 ^ f) ++ "." ++ padLeftZeros (toString (n % 10 ^ f)) f

/-- `getScaleLatLng( lat, lng, zoom )` (DataModule.php lines 828–835):
both coordinates formatted with `toFixed( precisionPerZoom[ zoom ] )`.
The source's `typeof zoom === 'undefined'` default to the current zoom is
applied at the call sites of this embedding. -/
def getScaleLatLng (lat lng : ℚ) (zoom : ℕ) : List String :=
  [toFixed lat (precisionAt zoom), toFixed lng (precisionAt zoom)]

/-- Leaflet `L.LatLng#wrap` for the Earth CRS: longitude wrapped into
[-180, 180] by `wrapNum(lng, [-180, 180], true)` (so exactly 180 is kept),
latitude untouched. -/
def wrapLng (x : ℚ) : ℚ :=
  if x = 180 then 180 else (x + 180) - 360 * ⌊(x + 180) / 360⌋ - 180

/-- `getCenter().wrap()`. -/
def LatLng.wrap (p : LatLng) : LatLng :=
  ⟨p.lat, wrapLng p.lng⟩

/-! ## Map state

The mutable state of one `KartographerMap` instance, restricted to the
fields the claims are about.  `center`/`zoom` are the live Leaflet view
(meaningful once the map has been placed by a `setView`; every scenario in
the claims reads them only after placement). -/

/-- `this._initialPosition` as stored by `initView`: either component may
be absent (`undefined` center, `NaN`/`undefined` zoom). -/
structure InitPos where
  center : Option LatLng
  zoom : Option ℕ
deriving DecidableEq

/-- The `{ zoom, longitude, latitude }` data attributes written onto the
closest `.mw-kartographer-interactive` container (setView save branch). -/
structure PosData where
  zoom : ℕ
  longitude : ℚ
  latitude : ℚ
deriving DecidableEq

/-- A resolved GeoJSON blob, as handed around between the data manager,
`addGeoJSONLayer` and the full-screen child copy.  Only its feature list
matters to the claims (in particular `$.isEmptyObject` = emptiness), so
features are abstract strings. -/
abbrev GeoJSON := List String

/-- One `KartographerMap` instance. -/
structure KMap where
  /-- `fallbackZoom` merged map option (`wgKartographerFallbackZoom`). -/
  fallbackZoom : ℕ
  /-- `this.fullScreenRoute` (`options.fullScreenRoute || null`; the
  claims about `getHash` assume a route is configured). -/
  fullScreenRoute : String
  /-- `this.$container.is( ':visible' )`: whether the container currently
  has visible dimensions. -/
  containerVisible : Bool
  /-- Every Leaflet layer added to the map (`this.eachLayer`): the base
  tile layer, the rendered data layers, markers. -/
  layers : List Layer
  /-- `this.dataLayers`, keyed by group id (insertion order kept; the
  attribution/options bookkeeping of `addGeoJSONLayer` is elided as pure
  styling).  The stored layer's `getGeoJSON()` is the recorded blob. -/
  dataLayers : List (String × GeoJSON)
  /-- `this._initialPosition` (absent before the first `initView`). -/
  initialPosition : Option InitPos
  /-- Current map center (`this.getCenter()`, unwrapped). -/
  center : LatLng
  /-- Current map zoom (`this.getZoom()`). -/
  zoom : ℕ
  /-- Position data attributes on the surrounding container. -/
  containerData : Option PosData
  /-- `this._kartographer_ready` (set by the `kartographerisready`
  event). -/
  ready : Bool
  /-- `map._updatingHash`: set by the router-driven close handshake of the
  full-screen dialog, consumed by `openFullScreen`. -/
  updatingHash : Bool

/-- The external Leaflet/mapbox drawing primitives consumed by the
controller, kept abstract as the spec treats the rendering library as a
collaborator: the center/zoom pair `L.Map#fitBounds` computes for a bounds
and a container, the pair `L.Map#fitWorld` computes, and
`L.mapbox.featureLayer` turning GeoJSON into a renderable layer (`none`
models the constructor throwing on malformed input). -/
structure Engine where
  fitBoundsPos : Box → LatLng × ℕ
  fitWorldPos : LatLng × ℕ
  featureLayer : GeoJSON → Option Layer

/-- A `center` argument as received by `initView`/`setView`: absent, an
`L.LatLng` object, or a 2-element array whose entries may be `NaN`
(`none`). -/
inductive CenterArg where
  | absent : CenterArg
  | ll (p : LatLng) : CenterArg
  | arr (lat lng : Option ℚ) : CenterArg
deriving DecidableEq

/-- The array normalization shared by `initView` and `setView` (lines
459–465 and 725–731): an array with two non-`NaN` entries becomes an
`L.LatLng`, any other array becomes `undefined`, everything else passes
through. -/
def resolveCenter : CenterArg → Option LatLng
  | .absent => none
  | .ll p => some p
  | .arr (some a) (some b) => some ⟨a, b⟩
  | .arr _ _ => none

/-- `CenterArg` view of an optional stored center (used when a stored
`_initialPosition.center` is passed back into `initView`/`setView`). -/
def centerArgOfOpt : Option LatLng → CenterArg
  | some p => .ll p
  | none => .absent

/-- `setView( center, zoom, options, save )` (DataModule.php lines
721–772) after the array normalization of its `center` argument.

With a resolved center, the plain `L.Map#setView` applies it with
`zoom = isNaN( zoom ) ? fallbackZoom : zoom` (clamped by Leaflet to the
tile layer's max zoom).  Otherwise the auto-fit path runs: fit to
`getValidBounds( this )` when valid, else fit the world; re-apply
`initial.zoom` when the stored initial position has a numeric zoom; and,
when the container is visible and `save` was requested, store the
calculated position via `initView( getCenter(), getZoom(), false )` and
write the container's data attributes.  (The source guards that last
write by `!this.fullscreen`, a property that is never assigned anywhere —
the full-screen flag lives on `this.options.fullscreen` — so the guard is
always passed.) -/
def setViewR (e : Engine) (m : KMap) (center : Option LatLng) (zoom : Option ℕ)
    (save : Bool) : KMap :=
  match center with
  | some c => { m with center := c, zoom := limitZoom (zoom.getD m.fallbackZoom) }
  | none =>
    let fit := match getValidBoundsMap m.layers with
      | some b => e.fitBoundsPos b
      | none => e.fitWorldPos
    let z1 := match m.initialPosition with
      | some ip => match ip.zoom with
        | some iz => limitZoom iz
        | none => fit.2
      | none => fit.2
    let m2 := { m with center := fit.1, zoom := z1 }
    if m.containerVisible && save then
      let m3 := { m2 with initialPosition := some ⟨some m2.center, some m2.zoom⟩ }
      { m3 with containerData := some ⟨m3.zoom, m3.center.lng, m3.center.lat⟩ }
    else m2

/-- `setView` on a raw `center` argument. -/
def setView (e : Engine) (m : KMap) (center : CenterArg) (zoom : Option ℕ)
    (save : Bool) : KMap :=
  setViewR e m (resolveCenter center) zoom save

/-- `initView( center, zoom, setView )` (DataModule.php lines 458–476):
normalizes the center, unconditionally stores `this._initialPosition`,
and unless `setView === false` repositions via
`this.setView( center, zoom, null, true )` — note the hard-coded
`save = true`. -/
def initView (e : Engine) (m : KMap) (center : CenterArg) (zoom : Option ℕ)
    (doSetView : Bool) : KMap :=
  let c := resolveCenter center
  let m1 := { m with initialPosition := some ⟨c, zoom⟩ }
  if doSetView then setViewR e m1 c zoom true else m1

/-- `getMapPosition()` without the `scaled` option (lines 649–660):
wrapped current center and current zoom. -/
def getMapPosition (m : KMap) : LatLng × ℕ :=
  (m.center.wrap, m.zoom)

/-- The `zoom + '/' + getScaleLatLng( … ).join( '/' )` serialization of a
position at a given zoom, as built for `newHash` in `getHash`. -/
def posHashStr (zoom : ℕ) (p : LatLng) : String :=
  toString zoom ++ "/" ++ String.intercalate "/" (getScaleLatLng p.lat p.lng zoom)

/-- JavaScript string coercion of a possibly-`undefined` zoom, as it
occurs in the `initialHash` concatenation (`undefined + '/'` yields the
literal text `"undefined/"`). -/
def optZoomStr : Option ℕ → String
  | some z => toString z
  | none => "undefined"

/-- `getHash()` (DataModule.php lines 671–698): the configured route
alone when no initial position exists; otherwise the route, suffixed by
the serialized current position unless that string equals the serialized
initial position (which is only computed at all when the initial center
exists — `initialPosition.center && ( … )` — and whose `getScaleLatLng`
falls back to the *current* zoom when the initial zoom is absent). -/
def getHash (m : KMap) : String :=
  match m.initialPosition with
  | none => m.fullScreenRoute
  | some initial =>
    let cur := getMapPosition m
    let newHash := posHashStr cur.2 cur.1
    let initialHash : Option String := initial.center.map (fun ic =>
      optZoomStr initial.zoom ++ "/" ++
        String.intercalate "/" (getScaleLatLng ic.lat ic.lng (initial.zoom.getD m.zoom)))
    if initialHash = some newHash then m.fullScreenRoute
    else m.fullScreenRoute ++ "/" ++ newHash

/-! ## Data layers: `addGeoJSONLayer`, `addDataGroups`, the initialize
data flow -/

/-- `addGeoJSONLayer( groupId, geoJson, options )` (lines 550–564):
`L.mapbox.featureLayer( … ).addTo( this )` inside a `try`; on success the
layer joins the map and is recorded in `this.dataLayers`; the `catch`
merely logs, so a rendering failure leaves the map unchanged.  The
attribution-control bookkeeping is elided (pure display). -/
def addGeoJSONLayer (e : Engine) (m : KMap) (groupId : String) (geoJson : GeoJSON) : KMap :=
  match e.featureLayer geoJson with
  | some layer =>
      { m with layers := m.layers ++ [layer],
               dataLayers := m.dataLayers ++ [(groupId, geoJson)] }
  | none => m

/-- One group as resolved by the injected data-manager service
(`DataManagerFactory().loadGroups`): id, geometry (possibly empty),
attribution, external flag. -/
structure DataGroup where
  id : String
  geo : GeoJSON
  attribution : String
  isExternal : Bool

/-- The outcome of the single `loadGroups( dataGroups )` service call:
either the resolved group list or an outright rejection of the promise. -/
abbrev LoaderOutcome := Except Unit (List DataGroup)

/-- `addDataGroups( dataGroups )` (lines 486–509): resolves immediately
when no groups were requested; otherwise forwards the loader outcome,
adding a layer for every group with nonempty GeoJSON
(`!$.isEmptyObject( group.getGeoJSON() )`) and merely logging a warning
for empty ones — an empty group never fails the batch.  A rejected loader
call leaves the whole promise rejected for the caller to handle. -/
def addDataGroups (e : Engine) (m : KMap) (dataGroups : List String)
    (loaded : LoaderOutcome) : Except Unit KMap :=
  if dataGroups.isEmpty then .ok m
  else
    loaded.map (fun groups =>
      groups.foldl (fun mm g =>
        if g.geo ≠ [] then addGeoJSONLayer e mm g.id g.geo else mm) m)

/-- The `ready()` closure of `initialize` (lines 395–405): position the
map via `initView( options.center, options.zoom )`, re-enable dragging,
and fire `kartographerisready` (recorded in `_kartographer_ready`). -/
def fireReady (e : Engine) (m : KMap) (center : CenterArg) (zoom : Option ℕ) : KMap :=
  { initView e m center zoom true with ready := true }

/-- The data-loading tail of `initialize` for a map without inline
`options.data` (lines 416–428): `addDataGroups( options.dataGroups )`
followed by `ready()` on success, and — per the T25787 fallback — by
`ready()` plus an error log when the loader call rejected outright. -/
def initializeDataFlow (e : Engine) (m : KMap) (center : CenterArg) (zoom : Option ℕ)
    (dataGroups : List String) (loaded : LoaderOutcome) : KMap :=
  match addDataGroups e m dataGroups loaded with
  | .ok m1 => fireReady e m1 center zoom
  | .error _ => fireReady e m center zoom

/-! ## Full-screen controller: `openFullScreen` -/

/-- The full-screen child of a map, tagged with a creation identifier so
that "the same child instance" is expressible (JavaScript object identity
has no counterpart in a pure embedding). -/
structure FSChild where
  id : ℕ
  map : KMap

/-- A map instance together with its full-screen machinery:
`options.link` (the `<maplink>` variant treats itself as the full-screen
target), the lazily created `this.fullScreenMap`, and a fresh-identifier
supply for child creation. -/
structure FSState where
  parent : KMap
  link : Bool
  fullScreenMap : Option FSChild
  nextChildId : ℕ

/-- What a (ready) `openFullScreen` call did: constructed a new child,
repositioned the existing target with `setView`, or aborted because the
target was mid-transition (`map._updatingHash`). The first two outcomes
continue into `mw.loader.using( 'ext.kartographer.dialog' )` and render
the dialog; the abort returns before that. -/
inductive OpenOutcome where
  | created : OpenOutcome
  | reusedSetView : OpenOutcome
  | aborted : OpenOutcome
deriving DecidableEq

/-- Construction of the full-screen child map
(`new KartographerMap( { …, fullscreen: true, parentMap: this } )`),
following `initialize` on the `parentMap` branch (lines 407–414): the
parent's already-resolved `dataLayers` are copied one by one through
`addGeoJSONLayer( groupId, layer.getGeoJSON(), layer.options )` — no
data-manager call is made — and `ready()` fires immediately, placing the
child at the requested position.  The child's container is a freshly
created detached `div`, hence not visible. -/
def mkChildMap (e : Engine) (parent : KMap) (pos : LatLng × ℕ) : KMap :=
  let base : KMap :=
    { fallbackZoom := parent.fallbackZoom
      fullScreenRoute := parent.fullScreenRoute
      containerVisible := false
      layers := [Layer.tile]
      dataLayers := []
      initialPosition := none
      center := pos.1
      zoom := pos.2
      containerData := none
      ready := false
      updatingHash := false }
  let copied := parent.dataLayers.foldl (fun mm ent => addGeoJSONLayer e mm ent.1 ent.2) base
  { fireReady e copied (.ll pos.1) (some pos.2) with ready := true }

/-- `openFullScreen( position )` (DataModule.php lines 573–616), executed
once the instance is ready (`doWhenReady`).  `position` defaults to the
parent's current `getMapPosition()`.  The `<maplink>` variant
(`options.link`) uses the instance itself as the target; otherwise the
child is created lazily on first use and then reused: a live child that is
mid-transition (`map._updatingHash`) aborts the call after clearing the
flag, and any other live child is simply `setView`'d to the requested
position. A freshly created child is silently re-initialized
(`initView( …, false )`) with its parent's remembered `_initialPosition`. -/
def openFullScreen (e : Engine) (s : FSState) (posArg : Option (LatLng × ℕ)) :
    FSState × OpenOutcome :=
  let position := posArg.getD (getMapPosition s.parent)
  if s.link then
    if s.parent.updatingHash then
      ({ s with parent := { s.parent with updatingHash := false } }, .aborted)
    else
      ({ s with parent := setViewR e s.parent (some position.1) (some position.2) false },
        .reusedSetView)
  else
    match s.fullScreenMap with
    | none =>
        let ip := s.parent.initialPosition.getD ⟨none, none⟩
        let child := mkChildMap e s.parent position
        let child := initView e child (centerArgOfOpt ip.center) ip.zoom false
        ({ s with fullScreenMap := some ⟨s.nextChildId, child⟩,
                  nextChildId := s.nextChildId + 1 }, .created)
    | some c =>
        if c.map.updatingHash then
          ({ s with fullScreenMap := some ⟨c.id, { c.map with updatingHash := false }⟩ },
            .aborted)
        else
          let moved := setViewR e c.map (some position.1) (some position.2) false
          ({ s with fullScreenMap := some ⟨c.id, moved⟩ }, .reusedSetView)

/-! ## Responsive mode: `_invalidateInteractive` / `toggleStaticState` -/

/-- The static/interactive bookkeeping of one instance: `this._static`
(`undefined` before the first toggle), whether the map is currently put to
sleep, whether the Leaflet.Sleep handler is enabled, whether wheel zoom is
enabled, and the `mw-kartographer-static` container class. -/
structure StaticState where
  static : Option Bool
  sleeping : Bool
  sleepEnabled : Bool
  scrollWheelZoomEnabled : Bool
  staticClass : Bool
deriving DecidableEq

/-- Modelled from the spec: the Leaflet.Sleep handler
(modules/box/leaflet.sleep.js, which is not under src/).  Enabling the
handler restores the sleep (click-to-activate) behavior; per §4.4,
entering interactive mode this way re-enables wheel-zoom (the awakened map
gets its interaction handlers back). -/
def sleepEnable (s : StaticState) : StaticState :=
  { s with sleepEnabled := true, scrollWheelZoomEnabled := true }

/-- The mode computed by `toggleStaticState` (lines 946–954): static
exactly when the device width is at most 480 px or the rendering surface's
width plus a 200 px scroll margin exceeds the device width. -/
def computeStatic (deviceWidth sizeX : ℕ) : Bool :=
  let isSmallWindow := decide (deviceWidth ≤ 480)
  isSmallWindow || decide (sizeX + 200 > deviceWidth)

/-- `toggleStaticState()` (DataModule.php lines 946–973): compute the
mode; skip when it equals `this._static` (strict equality, so the
`undefined` initial value never matches); otherwise record it and, when
entering static, force sleep (`sleep._sleepMap()`), disable the sleep
handler and wheel zoom — when entering interactive, re-enable the sleep
handler; finally toggle the `mw-kartographer-static` class. -/
def toggleStaticState (deviceWidth sizeX : ℕ) (s : StaticState) : StaticState :=
  let staticMap := computeStatic deviceWidth sizeX
  if s.static = some staticMap then s
  else
    let s1 := { s with static := some staticMap }
    if staticMap then
      { s1 with sleeping := true, sleepEnabled := false,
                scrollWheelZoomEnabled := false, staticClass := true }
    else
      { sleepEnable s1 with staticClass := false }

/-- The guard installing the responsive controller (line 385): the
construction-time `_invalidateInteractive()` call — which installs the
debounced `invalidateSize` override and runs the initial
`toggleStaticState()` — happens only for instances flagged neither
full-screen nor always-interactive. -/
def runsResponsiveController (fullscreen alwaysInteractive : Bool) : Bool :=
  !fullscreen && !alwaysInteractive

/-- A concrete instantiation of the external drawing primitives, used to
evaluate the theorems below on concrete inputs: `fitBounds` lands on the
bounds' south-west corner at zoom 10, `fitWorld` on the origin at zoom 1,
and the feature-layer factory renders every blob as one marker. -/
def sampleEngine : Engine where
  fitBoundsPos := fun b => (⟨b.south, b.west⟩, 10)
  fitWorldPos := (⟨0, 0⟩, 1)
  featureLayer := fun _ => some (.marker ⟨10, 20⟩)

/-! ## Helper lemmas -/

/-- Folding points into a nonempty bounding box keeps it nonempty. -/
lemma bboxFoldl_isSome (l : List LatLng) :
    ∀ b : Box,
      (l.foldl (fun acc p => some ((acc.getD (pointBox p)).extendPoint p)) (some b)).isSome = true := by
  induction l with
  | nil => intro b; rfl
  | cons p rest ih =>
      intro b
      simpa using ih (b.extendPoint p)

/-- Enlarging a box can only lose world containment, never gain it. -/
lemma containsBox_of_extendPoint (b : Box) (p : LatLng)
    (h : worldLatLng.containsBox (b.extendPoint p) = true) :
    worldLatLng.containsBox b = true := by
  simp only [Box.containsBox, Box.extendPoint, worldLatLng, Bool.and_eq_true,
    decide_eq_true_eq] at h ⊢
  obtain ⟨⟨⟨h1, h2⟩, h3⟩, h4⟩ := h
  exact ⟨⟨⟨le_trans h1 (min_le_left _ _), le_trans (le_max_left _ _) h2⟩,
    le_trans h3 (min_le_left _ _)⟩, le_trans (le_max_left _ _) h4⟩

/-- A bounding box that fails the world test keeps failing after more
points get folded in. -/
lemma worldContains_foldl_false (l : List LatLng) :
    ∀ b : Box, worldLatLng.containsBox b = false →
      worldContains (l.foldl (fun acc p => some ((acc.getD (pointBox p)).extendPoint p)) (some b)) = false := by
  induction l with
  | nil => intro b hb; simpa [worldContains] using hb
  | cons p rest ih =>
      intro b hb
      have hext : worldLatLng.containsBox (b.extendPoint p) = false := by
        cases hc : worldLatLng.containsBox (b.extendPoint p) with
        | false => rfl
        | true => rw [containsBox_of_extendPoint b p hc] at hb; cases hb
      simpa using ih (b.extendPoint p) hext

/-- `setView` never touches the data-layer registry, whichever branch
runs. -/
lemma setViewR_dataLayers (e : Engine) (m : KMap) (center : Option LatLng)
    (zoom : Option ℕ) (save : Bool) :
    (setViewR e m center zoom save).dataLayers = m.dataLayers := by
  cases center with
  | some c => rfl
  | none => simp only [setViewR]; split <;> rfl

/-- `setView` never touches the readiness flag. -/
lemma setViewR_ready (e : Engine) (m : KMap) (center : Option LatLng)
    (zoom : Option ℕ) (save : Bool) :
    (setViewR e m center zoom save).ready = m.ready := by
  cases center with
  | some c => rfl
  | none => simp only [setViewR]; split <;> rfl

/-- The array normalization is the identity on already-resolved optional
centers. -/
lemma resolveCenter_centerArgOfOpt (c : Option LatLng) :
    resolveCenter (centerArgOfOpt c) = c := by
  cases c <;> rfl

/-- Prepending the empty string is the identity. -/
lemma empty_string_append (s : String) : "" ++ s = s := by
  cases s
  rfl

/-- Longitudes already inside the wrap range are fixed by `wrapLng`. -/
lemma wrapLng_eq_self (x : ℚ) (h1 : -180 ≤ x) (h2 : x < 180) : wrapLng x = x := by
  have hx180 : ¬ x = 180 := by
    intro he
    rw [he] at h2
    exact absurd h2 (lt_irrefl (180 : ℚ))
  rw [wrapLng, if_neg hx180]
  have hfl : ⌊(x + 180) / 360⌋ = 0 := by
    rw [Int.floor_eq_zero_iff, Set.mem_Ico]
    constructor
    · exact div_nonneg (by linarith) (by norm_num)
    · rw [div_lt_one (by norm_num)]
      linarith
  rw [hfl]
  push_cast
  ring

/-- Evaluation rule for the `toFixed` rounding integer, driven by the
floor characterization. -/
lemma toFixedNum_eq (x : ℚ) (f n : ℕ)
    (h1 : (n : ℚ) ≤ |x| * 10 ^ f + 1 / 2) (h2 : |x| * 10 ^ f + 1 / 2 < n + 1) :
    toFixedNum x f = n := by
  have hfl : ⌊|x| * 10 ^ f + 1 / 2⌋ = (n : ℤ) := by
    rw [Int.floor_eq_iff]
    push_cast
    exact ⟨h1, h2⟩
  rw [toFixedNum, hfl]
  exact Int.toNat_natCast n

/-- Evaluation rule for `toFixed` on nonnegative inputs. -/
lemma toFixed_eval (x : ℚ) (f n : ℕ) (hx : 0 ≤ x)
    (h1 : (n : ℚ) ≤ x * 10 ^ f + 1 / 2) (h2 : x * 10 ^ f + 1 / 2 < n + 1) :
    toFixed x f =
      if f = 0 then toString n
      else toString (n / 10 ^ f) ++ "." ++ padLeftZeros (toString (n % 10 ^ f)) f := by
  have habs : |x| = x := abs_of_nonneg hx
  have hn : toFixedNum x f = n := toFixedNum_eq x f n (by rw [habs]; exact h1)
    (by rw [habs]; exact h2)
  have hsgn : ¬ x < 0 := not_lt.mpr hx
  simp only [toFixed, hn, if_neg hsgn]
  split <;> rw [empty_string_append]

/-! ## C9: the precision table stops at zoom 18 -/

/-- C9: the zoom→decimal-places table `precisionPerZoom` has entries only
for zoom levels 0 through 18 while the tile layer permits zoom up to 19;
for every zoom level of 19 or more the lookup runs past the end of the
table and `getScaleLatLng` rounds both coordinates to 0 decimal places
(instead of a precision that increases with zoom — at zoom 18 it is 5
decimal places). -/
theorem getScaleLatLng_zoom_overflow :
    precisionPerZoom.length = 19 ∧
    wikimediaMaxZoom = 19 ∧
    (∀ z : ℕ, 19 ≤ z → precisionAt z = 0) ∧
    precisionAt 18 = 5 ∧
    (∀ (z : ℕ) (lat lng : ℚ), 19 ≤ z →
      getScaleLatLng lat lng z = [toFixed lat 0, toFixed lng 0]) := by
  have hlen : precisionPerZoom.length = 19 := rfl
  have hz0 : ∀ z : ℕ, 19 ≤ z → precisionAt z = 0 := by
    intro z hz
    exact List.getD_eq_default _ _ (by rw [hlen]; exact hz)
  refine ⟨hlen, rfl, hz0, rfl, ?_⟩
  intro z lat lng hz
  rw [getScaleLatLng, hz0 z hz]

/-- Witness for C9 at zoom 19 (the tile layer's maximum) with the
latitude 85.5, longitude 180. -/
theorem getScaleLatLng_zoom_overflow_witness :
    precisionAt 19 = 0 ∧
    getScaleLatLng (855 / 10) 180 19 = [toFixed (855 / 10) 0, toFixed 180 0] := by
  have h := getScaleLatLng_zoom_overflow
  exact ⟨h.2.2.1 19 (le_refl 19), h.2.2.2.2 19 (855 / 10) 180 (le_refl 19)⟩

/-! ## C3: the geomask special case of `validateBounds` -/

/-- C3: a polygon layer whose own bounding box fails the world-envelope
test but which has more than one ring is retried on the bounds of all
rings except the first, accepted exactly when that sub-bounds lies within
the world envelope; in particular a polygon whose outer ring covers the
world (its bounding box exceeds the envelope) with a second ring inside
the envelope yields exactly the second ring's bounds. -/
theorem validateBounds_geomask :
    (∀ rings : List (List LatLng),
      worldContains (bboxOfPoints rings.flatten) = false →
      2 ≤ rings.length →
      validateBounds (.polygon rings) =
        (if worldContains (bboxOfPoints (rings.drop 1).flatten) then
          bboxOfPoints (rings.drop 1).flatten else none)) ∧
    (∀ outerRing innerRing : List LatLng,
      worldContains (bboxOfPoints outerRing) = false →
      worldContains (bboxOfPoints innerRing) = true →
      validateBounds (.polygon [outerRing, innerRing]) = bboxOfPoints innerRing) := by
  constructor
  · intro rings hfail hlen
    simp only [validateBounds, hfail, Bool.false_eq_true, if_false, hlen, if_true]
  · intro outerRing innerRing houter hinner
    cases outerRing with
    | nil =>
        simp only [validateBounds, List.flatten, List.append_nil, List.nil_append, hinner,
          if_true]
    | cons q rest =>
        have hflat : (([q :: rest, innerRing] : List (List LatLng)).flatten)
            = (q :: rest) ++ innerRing := by simp
        obtain ⟨b, hb⟩ : ∃ b, bboxOfPoints (q :: rest) = some b := by
          have := bboxFoldl_isSome rest ((pointBox q).extendPoint q)
          rw [Option.isSome_iff_exists] at this
          simpa [bboxOfPoints] using this
        have hbfail : worldLatLng.containsBox b = false := by
          have : worldContains (some b) = false := hb ▸ houter
          simpa [worldContains] using this
        have hwhole : worldContains (bboxOfPoints ((q :: rest) ++ innerRing)) = false := by
          have hfold : bboxOfPoints ((q :: rest) ++ innerRing)
              = innerRing.foldl (fun acc p => some ((acc.getD (pointBox p)).extendPoint p))
                  (some b) := by
            rw [bboxOfPoints, List.foldl_append]
            rw [bboxOfPoints] at hb
            rw [hb]
          rw [hfold]
          exact worldContains_foldl_false innerRing b hbfail
        simp only [validateBounds, hflat, hwhole, Bool.false_eq_true, if_false,
          List.length_cons, List.length_singleton, List.drop_succ_cons, List.drop_zero]
        simp [hinner]

/-- Witness for C3: outer ring spanning longitudes ±200 (beyond the
envelope), hole spanning (10,10)–(20,20). -/
theorem validateBounds_geomask_witness :
    validateBounds (.polygon [[⟨-90, -200⟩, ⟨90, 200⟩], [⟨10, 10⟩, ⟨20, 20⟩]])
      = bboxOfPoints [⟨10, 10⟩, ⟨20, 20⟩] := by
  exact validateBounds_geomask.2 [⟨-90, -200⟩, ⟨90, 200⟩] [⟨10, 10⟩, ⟨20, 20⟩]
    (by decide) (by decide)

/-! ## C6: the static/interactive mode rule -/

/-- C6: for instances managed by the responsive controller (neither
full-screen nor always-interactive), the computed mode is static exactly
when the viewport width is at most 480 px or the surface width plus a
200 px scroll margin exceeds it; the transition is a no-op when the
computed mode equals the current one; entering static forces sleep and
disables wheel zoom, entering interactive re-enables the sleep handler
and (through the modelled Leaflet.Sleep behavior) wheel zoom. -/
theorem toggleStaticState_rule :
    ∀ (deviceWidth sizeX : ℕ) (s : StaticState),
      (computeStatic deviceWidth sizeX = true ↔
        deviceWidth ≤ 480 ∨ deviceWidth < sizeX + 200) ∧
      (∀ fullscreen alwaysInteractive : Bool,
        runsResponsiveController fullscreen alwaysInteractive = true ↔
          fullscreen = false ∧ alwaysInteractive = false) ∧
      (s.static = some (computeStatic deviceWidth sizeX) →
        toggleStaticState deviceWidth sizeX s = s) ∧
      (s.static ≠ some (computeStatic deviceWidth sizeX) →
        (toggleStaticState deviceWidth sizeX s).static
            = some (computeStatic deviceWidth sizeX) ∧
        (computeStatic deviceWidth sizeX = true →
          (toggleStaticState deviceWidth sizeX s).sleeping = true ∧
          (toggleStaticState deviceWidth sizeX s).sleepEnabled = false ∧
          (toggleStaticState deviceWidth sizeX s).scrollWheelZoomEnabled = false ∧
          (toggleStaticState deviceWidth sizeX s).staticClass = true) ∧
        (computeStatic deviceWidth sizeX = false →
          (toggleStaticState deviceWidth sizeX s).sleepEnabled = true ∧
          (toggleStaticState deviceWidth sizeX s).scrollWheelZoomEnabled = true ∧
          (toggleStaticState deviceWidth sizeX s).staticClass = false)) := by
  intro deviceWidth sizeX s
  refine ⟨?_, ?_, ?_, ?_⟩
  · simp only [computeStatic, Bool.or_eq_true, decide_eq_true_eq, gt_iff_lt]
  · intro fullscreen alwaysInteractive
    cases fullscreen <;> cases alwaysInteractive <;> simp [runsResponsiveController]
  · intro h
    simp [toggleStaticState, h]
  · intro h
    cases hc : computeStatic deviceWidth sizeX <;>
      simp [toggleStaticState, hc, sleepEnable, h, hc ▸ h]

/-- Witness for C6: a 400 px viewport with a 100 px surface on a fresh
instance (current mode still undetermined) transitions to static. -/
theorem toggleStaticState_rule_witness :
    (computeStatic 400 100 = true ↔ (400 : ℕ) ≤ 480 ∨ (400 : ℕ) < 100 + 200) ∧
    (toggleStaticState 400 100 ⟨none, false, true, true, false⟩).static = some true ∧
    (toggleStaticState 400 100 ⟨none, false, true, true, false⟩).scrollWheelZoomEnabled
      = false := by
  have h := toggleStaticState_rule 400 100 ⟨none, false, true, true, false⟩
  have h4 := h.2.2.2 (by simp [computeStatic])
  refine ⟨h.1, ?_, ?_⟩
  · have := h4.1
    simpa [computeStatic] using this
  · exact (h4.2.1 (by simp [computeStatic])).2.2.1

/-! ## C2 and C10: `getHash` -/

/-- Appending the `/`-led position suffix always changes the route. -/
lemma route_append_ne (route s : String) : route ++ "/" ++ s ≠ route := by
  intro he
  have hlen := congrArg String.length he
  rw [String.length_append, String.length_append] at hlen
  have hone : ("/" : String).length = 1 := rfl
  omega

/-- A sample mapframe (route `/map/0`) placed at latitude 1, longitude 2,
zoom 7, whose initial position records exactly that placement. -/
def c2Map : KMap :=
  { fallbackZoom := 10
    fullScreenRoute := "/map/0"
    containerVisible := true
    layers := [.tile]
    dataLayers := []
    initialPosition := some ⟨some ⟨1, 2⟩, some 7⟩
    center := ⟨1, 2⟩
    zoom := 7
    containerData := none
    ready := true
    updatingHash := false }

/-- The same map after the user panned to latitude 5, longitude 6. -/
def c2MapMoved : KMap :=
  { c2Map with center := ⟨5, 6⟩ }

/-- C2: with a fully known initial position, `getHash` yields exactly the
route when and only when the serialized rounded current position (wrapped
center rounded at the zoom-dependent precision, plus zoom) coincides with
the serialized rounded initial position, and yields the route plus the
`/{zoom}/{lat}/{lng}` suffix when they differ; with no initial position at
all it yields the route alone. -/
theorem getHash_route_iff :
    (∀ (m : KMap) (ic : LatLng) (iz : ℕ),
      m.initialPosition = some ⟨some ic, some iz⟩ →
      ((getHash m = m.fullScreenRoute ↔
         posHashStr m.zoom m.center.wrap = posHashStr iz ic) ∧
       (posHashStr m.zoom m.center.wrap ≠ posHashStr iz ic →
         getHash m = m.fullScreenRoute ++ "/" ++ posHashStr m.zoom m.center.wrap))) ∧
    (∀ m : KMap, m.initialPosition = none → getHash m = m.fullScreenRoute) := by
  constructor
  · intro m ic iz h
    have hget : getHash m =
        (if posHashStr iz ic = posHashStr m.zoom m.center.wrap then m.fullScreenRoute
         else m.fullScreenRoute ++ "/" ++ posHashStr m.zoom m.center.wrap) := by
      simp only [getHash, h, getMapPosition, Option.map_some', Option.getD_some, optZoomStr,
        Option.some.injEq, posHashStr]
    constructor
    · rw [hget]
      by_cases hc : posHashStr iz ic = posHashStr m.zoom m.center.wrap
      · rw [if_pos hc]
        simpa using hc.symm
      · rw [if_neg hc]
        exact ⟨fun he => absurd he (route_append_ne _ _), fun he => absurd he.symm hc⟩
    · intro hne
      rw [hget, if_neg fun hcc => hne hcc.symm]
  · intro m h
    simp only [getHash, h]

/-- Witness for C2: the unmoved sample map hashes to the route alone, the
panned one to the route plus the current-position suffix. -/
theorem getHash_route_iff_witness :
    getHash c2Map = c2Map.fullScreenRoute ∧
    getHash c2MapMoved
      = c2MapMoved.fullScreenRoute ++ "/" ++ posHashStr c2MapMoved.zoom c2MapMoved.center.wrap := by
  have h1 := (getHash_route_iff.1 c2Map ⟨1, 2⟩ 7 rfl).1
  have h2 := (getHash_route_iff.1 c2MapMoved ⟨1, 2⟩ 7 rfl).2
  have hw1 : c2Map.center.wrap = (⟨1, 2⟩ : LatLng) := by
    show LatLng.wrap ⟨1, 2⟩ = _
    rw [LatLng.wrap, wrapLng_eq_self 2 (by norm_num) (by norm_num)]
  have hw5 : c2MapMoved.center.wrap = (⟨5, 6⟩ : LatLng) := by
    show LatLng.wrap ⟨5, 6⟩ = _
    rw [LatLng.wrap, wrapLng_eq_self 6 (by norm_num) (by norm_num)]
  have hne : posHashStr c2MapMoved.zoom c2MapMoved.center.wrap ≠ posHashStr 7 ⟨1, 2⟩ := by
    rw [hw5]
    show posHashStr 7 ⟨5, 6⟩ ≠ posHashStr 7 ⟨1, 2⟩
    rw [posHashStr, posHashStr, getScaleLatLng, getScaleLatLng]
    rw [show precisionAt 7 = 3 from rfl]
    rw [toFixed_eval 1 3 1000 (by norm_num) (by norm_num) (by norm_num),
      toFixed_eval 2 3 2000 (by norm_num) (by norm_num) (by norm_num),
      toFixed_eval 5 3 5000 (by norm_num) (by norm_num) (by norm_num),
      toFixed_eval 6 3 6000 (by norm_num) (by norm_num) (by norm_num)]
    decide
  refine ⟨h1.mpr ?_, h2 hne⟩
  rw [hw1]
  rfl

/-- A map whose initial position was stored without a valid center (the
`center="auto"` / invalid-array case), currently sitting at the origin. -/
def c10Map : KMap :=
  { fallbackZoom := 10
    fullScreenRoute := "/map/0"
    containerVisible := true
    layers := [.tile]
    dataLayers := []
    initialPosition := some ⟨none, some 7⟩
    center := ⟨0, 0⟩
    zoom := 1
    containerData := none
    ready := true
    updatingHash := false }

/-- C10: when the stored initial position has no center, the initial hash
is never computable (`initialPosition.center && ( … )` stays undefined),
so `getHash` always appends the current-position suffix — the result is
never the bare route, even if the map has not moved. -/
theorem getHash_unknown_initial_center :
    ∀ (m : KMap) (ip : InitPos), m.initialPosition = some ip → ip.center = none →
      getHash m = m.fullScreenRoute ++ "/" ++ posHashStr m.zoom m.center.wrap ∧
      getHash m ≠ m.fullScreenRoute := by
  intro m ip h hc
  have hget : getHash m = m.fullScreenRoute ++ "/" ++ posHashStr m.zoom m.center.wrap := by
    simp only [getHash, h, hc, getMapPosition, Option.map_none', reduceCtorEq, if_false]
  exact ⟨hget, hget ▸ route_append_ne _ _⟩

/-- Witness for C10 on the concrete center-less sample map. -/
theorem getHash_unknown_initial_center_witness :
    getHash c10Map = c10Map.fullScreenRoute ++ "/" ++ posHashStr c10Map.zoom c10Map.center.wrap ∧
    getHash c10Map ≠ c10Map.fullScreenRoute :=
  getHash_unknown_initial_center c10Map ⟨none, some 7⟩ rfl rfl

/-! ## C1: the auto-fit branch of `setView` -/

/-- A map whose initial position stored no center but zoom 3 (e.g.
`center="auto" zoom=3`), carrying only the base tile layer, not currently
visible. -/
def c1Map : KMap :=
  { fallbackZoom := 10
    fullScreenRoute := "/map/0"
    containerVisible := false
    layers := [.tile]
    dataLayers := []
    initialPosition := some ⟨none, some 3⟩
    center := ⟨0, 0⟩
    zoom := 0
    containerData := none
    ready := true
    updatingHash := false }

/-- Counterexample to C1 as stated: a `setView` request carrying the
numeric zoom 5 on a map whose stored initial zoom is 3 ends at zoom 3 —
the zoom reapplied after the auto-fit is the *initial position's* zoom,
not the zoom supplied with the request. -/
theorem setView_requested_zoom_not_reapplied :
    (setView sampleEngine c1Map .absent (some 5) false).zoom = 3 ∧ (3 : ℕ) ≠ 5 := by
  exact ⟨rfl, by decide⟩

/-- C1 (amended): when no valid center resolves, `setView` fits the view
to the auto-fit bounds over all current layers when those are valid and to
the whole world otherwise — and afterwards reapplies the zoom stored in
the map's initial position whenever that stored zoom is numeric (the zoom
supplied with the request itself is ignored in this branch: the result
does not depend on it). -/
theorem setView_autofit_applies_initial_zoom :
    ∀ (e : Engine) (m : KMap) (center : CenterArg) (zoom : Option ℕ) (save : Bool),
      resolveCenter center = none →
      (setView e m center zoom save).center =
        (match getValidBoundsMap m.layers with
         | some b => e.fitBoundsPos b
         | none => e.fitWorldPos).1 ∧
      (setView e m center zoom save).zoom =
        (match m.initialPosition with
         | some ip =>
           match ip.zoom with
           | some iz => limitZoom iz
           | none => (match getValidBoundsMap m.layers with
             | some b => e.fitBoundsPos b
             | none => e.fitWorldPos).2
         | none => (match getValidBoundsMap m.layers with
           | some b => e.fitBoundsPos b
           | none => e.fitWorldPos).2) ∧
      setView e m center zoom save = setView e m center none save := by
  intro e m center zoom save h
  rw [setView, setView, h]
  refine ⟨?_, ?_, ?_⟩
  · simp only [setViewR]
    split <;> rfl
  · simp only [setViewR]
    split <;> rfl
  · rfl

/-- Witness for C1 (amended) on the tile-only sample map: auto-fit falls
back to the world view and the stored initial zoom 3 wins over the
requested zoom 5. -/
theorem setView_autofit_applies_initial_zoom_witness :
    (setView sampleEngine c1Map .absent (some 5) false).center = ⟨0, 0⟩ ∧
    (setView sampleEngine c1Map .absent (some 5) false).zoom = 3 := by
  have h := setView_autofit_applies_initial_zoom sampleEngine c1Map .absent (some 5) false rfl
  exact ⟨h.1, h.2.1⟩

/-! ## C7: the persist/save branch writes only into a visible container -/

/-- An invisible mapframe with one marker layer. -/
def c7Hidden : KMap :=
  { fallbackZoom := 10
    fullScreenRoute := "/map/1"
    containerVisible := false
    layers := [.marker ⟨30, 40⟩]
    dataLayers := []
    initialPosition := some ⟨none, none⟩
    center := ⟨0, 0⟩
    zoom := 0
    containerData := none
    ready := true
    updatingHash := false }

/-- The same mapframe once its container is visibly rendered. -/
def c7Visible : KMap :=
  { c7Hidden with containerVisible := true }

/-- C7: with persist requested, the resolved center/zoom is written back
into `initialPosition` and into the container's position data attributes
only when the container is visibly rendered — an invisible container
leaves both untouched; a visible one (in the auto-fit branch, the only
branch that saves) receives exactly the resolved center/zoom. -/
theorem setView_persist_visibility :
    ∀ (e : Engine) (m : KMap) (center : CenterArg) (zoom : Option ℕ),
      (m.containerVisible = false →
        (setView e m center zoom true).initialPosition = m.initialPosition ∧
        (setView e m center zoom true).containerData = m.containerData) ∧
      (m.containerVisible = true → resolveCenter center = none →
        (setView e m center zoom true).initialPosition =
          some ⟨some (setView e m center zoom true).center,
                some (setView e m center zoom true).zoom⟩ ∧
        (setView e m center zoom true).containerData =
          some ⟨(setView e m center zoom true).zoom,
                (setView e m center zoom true).center.lng,
                (setView e m center zoom true).center.lat⟩) := by
  intro e m center zoom
  constructor
  · intro hvis
    cases hc : resolveCenter center with
    | some c => rw [setView, hc]; exact ⟨rfl, rfl⟩
    | none =>
        rw [setView, hc]
        refine ⟨?_, ?_⟩ <;> simp [setViewR, hvis]
  · intro hvis hc
    rw [setView, hc]
    refine ⟨?_, ?_⟩ <;> simp [setViewR, hvis]

/-- Witness for C7: the hidden sample map keeps its state, the visible one
gets the auto-fit result persisted. -/
theorem setView_persist_visibility_witness :
    (setView sampleEngine c7Hidden .absent none true).initialPosition = c7Hidden.initialPosition ∧
    (setView sampleEngine c7Visible .absent none true).initialPosition =
      some ⟨some (setView sampleEngine c7Visible .absent none true).center,
            some (setView sampleEngine c7Visible .absent none true).zoom⟩ := by
  have ha := (setView_persist_visibility sampleEngine c7Hidden .absent none).1 rfl
  have hb := (setView_persist_visibility sampleEngine c7Visible .absent none).2 rfl rfl
  exact ⟨ha.1, hb.1⟩

/-! ## C8: `initialPosition` is not immutable -/

/-- A map whose initial position already stores the fully resolved pair
(center (50,50), zoom 7) and which carries one marker at (10,20) in a
visible container. -/
def c8Map : KMap :=
  { fallbackZoom := 10
    fullScreenRoute := "/map/2"
    containerVisible := true
    layers := [.marker ⟨10, 20⟩]
    dataLayers := []
    initialPosition := some ⟨some ⟨50, 50⟩, some 7⟩
    center := ⟨50, 50⟩
    zoom := 7
    containerData := none
    ready := true
    updatingHash := false }

/-- Counterexample to C8 as stated: one persisting auto-fit `setView` on a
visible map overwrites the previously stored resolved pair — the
initial position moves from ((50,50),7) to the freshly fitted ((10,20),7). -/
theorem initialPosition_overwritten_by_save :
    c8Map.initialPosition = some ⟨some ⟨50, 50⟩, some 7⟩ ∧
    (setView sampleEngine c8Map .absent none true).initialPosition
      = some ⟨some ⟨10, 20⟩, some 7⟩ ∧
    (setView sampleEngine c8Map .absent none true).initialPosition
      ≠ c8Map.initialPosition := by
  refine ⟨rfl, ?_, ?_⟩ <;> decide

/-- C8 (amended): `initialPosition` is not immutable — it is overwritten
by every `initView` call, and in particular by the save branch of a
persisting auto-fit `setView` on a visible container, which stores the
newly resolved center/zoom; it is left unchanged by `setView` calls that
resolve a valid center, by non-persisting calls, and whenever the
container is not visibly rendered. -/
theorem initialPosition_mutation_rule :
    ∀ (e : Engine) (m : KMap) (center : CenterArg) (zoom : Option ℕ) (save : Bool),
      (∀ c, resolveCenter center = some c →
        (setView e m center zoom save).initialPosition = m.initialPosition) ∧
      (save = false →
        (setView e m center zoom save).initialPosition = m.initialPosition) ∧
      (m.containerVisible = false →
        (setView e m center zoom save).initialPosition = m.initialPosition) ∧
      (resolveCenter center = none → save = true → m.containerVisible = true →
        (setView e m center zoom save).initialPosition
          = some ⟨some (setView e m center zoom save).center,
                  some (setView e m center zoom save).zoom⟩) ∧
      (initView e m center zoom false).initialPosition
          = some ⟨resolveCenter center, zoom⟩ := by
  intro e m center zoom save
  refine ⟨?_, ?_, ?_, ?_, ?_⟩
  · intro c hc
    rw [setView, hc]
    rfl
  · intro hsave
    subst hsave
    cases hc : resolveCenter center with
    | some c => rw [setView, hc]; rfl
    | none =>
        rw [setView, hc]
        simp [setViewR]
  · intro hvis
    cases hc : resolveCenter center with
    | some c => rw [setView, hc]; rfl
    | none =>
        rw [setView, hc]
        simp [setViewR, hvis]
  · intro hc hsave hvis
    subst hsave
    rw [setView, hc]
    simp [setViewR, hvis]
  · rw [initView, if_neg (by simp)]

/-- Witness for C8 (amended): the direct branch preserves the stored
initial position, the silent `initView` of the full-screen flow overwrites
it. -/
theorem initialPosition_mutation_rule_witness :
    (setView sampleEngine c8Map (.ll ⟨1, 2⟩) (some 4) true).initialPosition
      = c8Map.initialPosition ∧
    (initView sampleEngine c8Map .absent (some 9) false).initialPosition
      = some ⟨none, some 9⟩ := by
  have h := initialPosition_mutation_rule sampleEngine c8Map (.ll ⟨1, 2⟩) (some 4) true
  have h2 := initialPosition_mutation_rule sampleEngine c8Map .absent (some 9) false
  exact ⟨h.1 ⟨1, 2⟩ rfl, h2.2.2.2.2⟩

/-! ## C5: resilient data-group loading -/

/-- A freshly constructed mapframe before any data has been added. -/
def c5Map : KMap :=
  { fallbackZoom := 10
    fullScreenRoute := "/map/4"
    containerVisible := true
    layers := [.tile]
    dataLayers := []
    initialPosition := none
    center := ⟨0, 0⟩
    zoom := 0
    containerData := none
    ready := false
    updatingHash := false }

/-- C5: map initialization always reaches the ready state, whatever the
loader returned — including an outright rejection (the T25787 fallback);
a group whose resolved geometry is empty is skipped without failing the
batch; and loading three groups of which one resolves empty and two
resolve with data yields exactly two data layers, with no error escaping
(the flow is a total function into `KMap`). -/
theorem initializeDataFlow_resilient :
    (∀ (e : Engine) (m : KMap) (center : CenterArg) (zoom : Option ℕ)
       (dataGroups : List String) (loaded : LoaderOutcome),
       (initializeDataFlow e m center zoom dataGroups loaded).ready = true) ∧
    (∀ (e : Engine) (m : KMap) (g : DataGroup), g.geo = [] →
       addDataGroups e m [g.id] (.ok [g]) = .ok m) ∧
    (initializeDataFlow sampleEngine c5Map .absent none ["a", "b", "c"]
        (.ok [⟨"a", [], "", false⟩, ⟨"b", ["f1"], "", false⟩, ⟨"c", ["f2"], "", false⟩])).dataLayers
      = [("b", ["f1"]), ("c", ["f2"])] := by
  refine ⟨?_, ?_, ?_⟩
  · intro e m center zoom dataGroups loaded
    rw [initializeDataFlow]
    split <;> rfl
  · intro e m g hempty
    simp [addDataGroups, Except.map, hempty]
  · rfl

/-- Witness for C5: a rejected loader call still produces a ready map, and
a single empty group is a no-op on the registry. -/
theorem initializeDataFlow_resilient_witness :
    (initializeDataFlow sampleEngine c5Map .absent none ["g"] (.error ())).ready = true ∧
    addDataGroups sampleEngine c5Map ["x"] (.ok [⟨"x", [], "", false⟩]) = .ok c5Map := by
  have h := initializeDataFlow_resilient
  exact ⟨h.1 sampleEngine c5Map .absent none ["g"] (.error ()),
    h.2.1 sampleEngine c5Map ⟨"x", [], "", false⟩ rfl⟩

/-! ## C4: the full-screen child lifecycle -/

/-- Copying already-resolved layers through `addGeoJSONLayer` appends
exactly the entries whose rendering succeeds — so when every entry
renders, the registry is extended by the full list. -/
lemma copyLayers_dataLayers (e : Engine) (entries : List (String × GeoJSON)) :
    ∀ base : KMap, (∀ ent ∈ entries, (e.featureLayer ent.2).isSome = true) →
      (entries.foldl (fun mm ent => addGeoJSONLayer e mm ent.1 ent.2) base).dataLayers
        = base.dataLayers ++ entries := by
  induction entries with
  | nil => intro base _; simp
  | cons ent rest ih =>
      intro base h
      rw [List.foldl_cons]
      obtain ⟨lay, hlay⟩ := Option.isSome_iff_exists.mp (h ent (List.mem_cons_self ent rest))
      have hstep : addGeoJSONLayer e base ent.1 ent.2
          = { base with layers := base.layers ++ [lay],
                        dataLayers := base.dataLayers ++ [(ent.1, ent.2)] } := by
        unfold addGeoJSONLayer
        rw [hlay]
      rw [hstep, ih _ (fun x hx => h x (List.mem_cons_of_mem ent hx))]
      simp

/-- `initView` never touches the data-layer registry. -/
lemma initView_dataLayers (e : Engine) (m : KMap) (center : CenterArg)
    (zoom : Option ℕ) (doSetView : Bool) :
    (initView e m center zoom doSetView).dataLayers = m.dataLayers := by
  rw [initView]
  split
  · rw [setViewR_dataLayers]
  · rfl

/-- The full-screen child carries exactly its parent's resolved data
layers (when every copy renders) and performs no loader call at all:
`mkChildMap` takes no loader outcome anywhere. -/
lemma mkChildMap_dataLayers (e : Engine) (parent : KMap) (pos : LatLng × ℕ)
    (h : ∀ ent ∈ parent.dataLayers, (e.featureLayer ent.2).isSome = true) :
    (mkChildMap e parent pos).dataLayers = parent.dataLayers := by
  show (fireReady e
      (parent.dataLayers.foldl (fun mm ent => addGeoJSONLayer e mm ent.1 ent.2)
        { fallbackZoom := parent.fallbackZoom
          fullScreenRoute := parent.fullScreenRoute
          containerVisible := false
          layers := [Layer.tile]
          dataLayers := []
          initialPosition := none
          center := pos.1
          zoom := pos.2
          containerData := none
          ready := false
          updatingHash := false })
      (.ll pos.1) (some pos.2)).dataLayers = parent.dataLayers
  show (initView e _ (.ll pos.1) (some pos.2) true).dataLayers = parent.dataLayers
  rw [initView_dataLayers, copyLayers_dataLayers e parent.dataLayers _ h]
  rfl

/-- A mapframe with one resolved data group, used as the full-screen
parent. -/
def c4Parent : KMap :=
  { fallbackZoom := 10
    fullScreenRoute := "/map/3"
    containerVisible := true
    layers := [.tile, .marker ⟨10, 20⟩]
    dataLayers := [("grp", ["f"])]
    initialPosition := some ⟨some ⟨50, 50⟩, some 7⟩
    center := ⟨50, 50⟩
    zoom := 7
    containerData := none
    ready := true
    updatingHash := false }

/-- The parent before any full-screen child exists. -/
def c4Closed : FSState :=
  { parent := c4Parent, link := false, fullScreenMap := none, nextChildId := 1 }

/-- A live full-screen child of the sample parent. -/
def c4Child : KMap :=
  { c4Parent with containerVisible := false, updatingHash := false }

/-- The parent with its child alive and idle. -/
def c4Open : FSState :=
  { parent := c4Parent, link := false, fullScreenMap := some ⟨0, c4Child⟩, nextChildId := 1 }

/-- The parent while the child is mid-transition from a router-driven
close (`_updatingHash` set). -/
def c4Closing : FSState :=
  { parent := c4Parent, link := false,
    fullScreenMap := some ⟨0, { c4Child with updatingHash := true }⟩, nextChildId := 1 }

/-- C4: for a ready non-link instance, the full-screen child is created
lazily on the first `openFullScreen` — copying the parent's resolved data
layers with no loader involvement, silently re-initialized to the parent's
remembered initial position, and immediately ready; a second call with the
child alive and idle reuses the same child (same identifier, no fresh
identifier consumed), merely `setView`ing it to the requested position and
leaving its layers and initial position alone; and a call while the child
is mid-transition from a router-driven close aborts, only clearing the
`_updatingHash` flag. -/
theorem openFullScreen_lifecycle :
    ∀ (e : Engine) (s : FSState) (posArg : Option (LatLng × ℕ)) (ip : InitPos),
      s.link = false → s.parent.ready = true → s.parent.initialPosition = some ip →
      ((s.fullScreenMap = none →
        (∀ ent ∈ s.parent.dataLayers, (e.featureLayer ent.2).isSome = true) →
        (openFullScreen e s posArg).2 = .created ∧
        (openFullScreen e s posArg).1.fullScreenMap.map (fun c => c.id)
          = some s.nextChildId ∧
        (openFullScreen e s posArg).1.fullScreenMap.map (fun c => c.map.dataLayers)
          = some s.parent.dataLayers ∧
        (openFullScreen e s posArg).1.fullScreenMap.map (fun c => c.map.initialPosition)
          = some (some ip) ∧
        (openFullScreen e s posArg).1.fullScreenMap.map (fun c => c.map.ready)
          = some true ∧
        (openFullScreen e s posArg).1.nextChildId = s.nextChildId + 1) ∧
      (∀ c0 : FSChild, s.fullScreenMap = some c0 → c0.map.updatingHash = false →
        (openFullScreen e s posArg).2 = .reusedSetView ∧
        (openFullScreen e s posArg).1.fullScreenMap.map (fun c => c.id) = some c0.id ∧
        (openFullScreen e s posArg).1.fullScreenMap.map (fun c => c.map.dataLayers)
          = some c0.map.dataLayers ∧
        (openFullScreen e s posArg).1.fullScreenMap.map (fun c => c.map.center)
          = some (posArg.getD (getMapPosition s.parent)).1 ∧
        (openFullScreen e s posArg).1.fullScreenMap.map (fun c => c.map.zoom)
          = some (limitZoom (posArg.getD (getMapPosition s.parent)).2) ∧
        (openFullScreen e s posArg).1.fullScreenMap.map (fun c => c.map.initialPosition)
          = some c0.map.initialPosition ∧
        (openFullScreen e s posArg).1.nextChildId = s.nextChildId) ∧
      (∀ c0 : FSChild, s.fullScreenMap = some c0 → c0.map.updatingHash = true →
        (openFullScreen e s posArg).2 = .aborted ∧
        (openFullScreen e s posArg).1.fullScreenMap
          = some ⟨c0.id, { c0.map with updatingHash := false }⟩ ∧
        (openFullScreen e s posArg).1.nextChildId = s.nextChildId)) := by
  intro e s posArg ip hlink _hready hinit
  refine ⟨?_, ?_, ?_⟩
  · intro hnone hrender
    have hred : openFullScreen e s posArg
        = ({ s with
              fullScreenMap := some ⟨s.nextChildId,
                initView e (mkChildMap e s.parent (posArg.getD (getMapPosition s.parent)))
                  (centerArgOfOpt ip.center) ip.zoom false⟩,
              nextChildId := s.nextChildId + 1 }, .created) := by
      simp only [openFullScreen, hlink, Bool.false_eq_true, if_false, hnone, hinit,
        Option.getD_some]
    rw [hred]
    refine ⟨rfl, rfl, ?_, ?_, ?_, rfl⟩
    · show some ((mkChildMap e s.parent (posArg.getD (getMapPosition s.parent))).dataLayers)
        = some s.parent.dataLayers
      rw [mkChildMap_dataLayers e s.parent _ hrender]
    · show some (some ⟨resolveCenter (centerArgOfOpt ip.center), ip.zoom⟩) = some (some ip)
      rw [resolveCenter_centerArgOfOpt]
    · rfl
  · intro c0 hsome hupd
    have hred : openFullScreen e s posArg
        = ({ s with
              fullScreenMap := some ⟨c0.id,
                setViewR e c0.map (some (posArg.getD (getMapPosition s.parent)).1)
                  (some (posArg.getD (getMapPosition s.parent)).2) false⟩ },
            .reusedSetView) := by
      simp only [openFullScreen, hlink, Bool.false_eq_true, if_false, hsome, hupd]
    rw [hred]
    refine ⟨rfl, rfl, ?_, rfl, rfl, rfl, rfl⟩
    show some ((setViewR e c0.map (some (posArg.getD (getMapPosition s.parent)).1)
      (some (posArg.getD (getMapPosition s.parent)).2) false).dataLayers)
        = some c0.map.dataLayers
    rw [setViewR_dataLayers]
  · intro c0 hsome hupd
    have hred : openFullScreen e s posArg
        = ({ s with fullScreenMap := some ⟨c0.id, { c0.map with updatingHash := false }⟩ },
            .aborted) := by
      simp only [openFullScreen, hlink, Bool.false_eq_true, if_false, hsome, hupd, if_true]
    rw [hred]
    exact ⟨rfl, rfl, rfl⟩

/-- Witness for C4: from the closed state a child with the fresh
identifier 1 is created carrying the parent's single data group; from the
open state the existing child 0 is repositioned to (3,4) at zoom 5; from
the closing state the call aborts. -/
theorem openFullScreen_lifecycle_witness :
    (openFullScreen sampleEngine c4Closed (some (⟨3, 4⟩, 5))).2 = .created ∧
    (openFullScreen sampleEngine c4Closed (some (⟨3, 4⟩, 5))).1.fullScreenMap.map
        (fun c => c.map.dataLayers) = some [("grp", ["f"])] ∧
    (openFullScreen sampleEngine c4Open (some (⟨3, 4⟩, 5))).2 = .reusedSetView ∧
    (openFullScreen sampleEngine c4Open (some (⟨3, 4⟩, 5))).1.fullScreenMap.map
        (fun c => c.id) = some 0 ∧
    (openFullScreen sampleEngine c4Closing (some (⟨3, 4⟩, 5))).2 = .aborted := by
  have h1 := openFullScreen_lifecycle sampleEngine c4Closed (some (⟨3, 4⟩, 5))
    ⟨some ⟨50, 50⟩, some 7⟩ rfl rfl rfl
  have h2 := openFullScreen_lifecycle sampleEngine c4Open (some (⟨3, 4⟩, 5))
    ⟨some ⟨50, 50⟩, some 7⟩ rfl rfl rfl
  have h3 := openFullScreen_lifecycle sampleEngine c4Closing (some (⟨3, 4⟩, 5))
    ⟨some ⟨50, 50⟩, some 7⟩ rfl rfl rfl
  have hrender : ∀ ent ∈ c4Parent.dataLayers, (sampleEngine.featureLayer ent.2).isSome = true := by
    intro ent _
    rfl
  refine ⟨(h1.1 rfl hrender).1, (h1.1 rfl hrender).2.2.1, ?_, ?_, ?_⟩
  · exact (h2.2.1 ⟨0, c4Child⟩ rfl rfl).1
  · exact (h2.2.1 ⟨0, c4Child⟩ rfl rfl).2.1
  · exact (h3.2.2 ⟨0, { c4Child with updatingHash := true }⟩ rfl rfl).1

end Kartographer
